import Mathlib

/-!
Verification development for the `Instagram-Microservice` user service
(identity, follow graph, RBAC, and privacy-gated profile visibility).

The definitions below are a shallow embedding of the Python source:
- `users/models.py` — the data model: `User`, `Profile`, `Follow`
  (directed follow edges with a `(follower, following)` uniqueness
  constraint), and the RBAC tables `Resource`/`Permission`/`Role`/`UserRole`
  with the ordered access levels `ACCESS_LEVEL_CHOICES`.
- `users/serializers.py` — `RegisterSerializer.create` (registration) and
  `ProfileSerializer.to_representation` (the privacy gate).
- `users/permissions.py` — the `IsAdmin` and `IsNormalUser` permission
  classes.

Identifiers (UUIDs in the source) are modelled as naturals; database
tables as lists; timestamps as naturals.  Operations that the spec
assigns to the core but whose code is not among the given source files
(the Graph Store's `AddEdge`/`RemoveEdge`, the RBAC Store's `Resolve` and
role assignment, the Permission Resolver's `Authorize`) are modelled from
the spec, with a doc comment saying so.
-/

namespace InstaCore

/-- Identity, from `users/models.py` `User` (Django `AbstractUser` plus a
UUID key and a unique email).  `is_active` and `is_superuser` are the
Django user flags consulted by the permission classes; UUIDs are
modelled as naturals. -/
structure User where
  id : Nat
  username : String
  email : String
  is_active : Bool
  is_superuser : Bool
  deriving DecidableEq, Repr

/-- Profile, from `users/models.py` `Profile` (with the `BaseModel`
fields `created_at`, `updated_at`, `is_active`; the `BaseModel` UUID key
is `pid`).  `user` is the `OneToOneField` owner, stored as the owner's
id.  `avatar` is the uploaded file name, `links` the JSON list. -/
structure Profile where
  pid : Nat
  user : Nat
  gender : String
  website : Option String
  bio : Option String
  avatar : Option String
  is_private : Bool
  is_verified : Bool
  is_professional : Bool
  links : List String
  posts : List Nat
  reels : List Nat
  stories : List Nat
  saved_posts : List Nat
  liked_posts : List Nat
  highlights : List Nat
  profile_views : Int
  created_at : Nat
  updated_at : Nat
  is_active : Bool
  deriving DecidableEq, Repr

/-- A follow edge, from `users/models.py` `Follow`: the pair
`(follower id, following id)`.  The table is a list of such pairs;
`Meta.unique_together` makes the pair unique in the database. -/
abbrev FollowEdge := Nat × Nat

/-- Membership test on the follow table, as used by
`Follow.objects.filter(follower=..., following=...).exists()` in
`ProfileSerializer.to_representation`. -/
def isFollowing (edges : List FollowEdge) (follower following : Nat) : Bool :=
  edges.any (fun e => e.1 == follower && e.2 == following)

/-- The field representation produced by `ProfileSerializer` on the full
path: every model field except the excluded `id`, plus the two
`SerializerMethodField` counters. -/
structure ProfileFields where
  user : Nat
  gender : String
  website : Option String
  bio : Option String
  avatar : Option String
  is_private : Bool
  is_verified : Bool
  is_professional : Bool
  links : List String
  posts : List Nat
  reels : List Nat
  stories : List Nat
  saved_posts : List Nat
  liked_posts : List Nat
  highlights : List Nat
  profile_views : Int
  created_at : Nat
  updated_at : Nat
  is_active : Bool
  followers_count : Nat
  following_count : Nat
  deriving DecidableEq, Repr

/-- Outcome of serializing a profile: either the full field dictionary
or the redaction dictionary holding only the `detail` string. -/
inductive Representation where
  | full (fields : ProfileFields) : Representation
  | detail (msg : String) : Representation
  deriving DecidableEq, Repr

/-- `ProfileSerializer.get_followers_count`:
`Follow.objects.filter(following=obj.user).count()`. -/
def followers_count (edges : List FollowEdge) (owner : Nat) : Nat :=
  (edges.filter (fun e => e.2 == owner)).length

/-- `ProfileSerializer.get_following_count`:
`Follow.objects.filter(follower=obj.user).count()`. -/
def following_count (edges : List FollowEdge) (owner : Nat) : Nat :=
  (edges.filter (fun e => e.1 == owner)).length

/-- The default `ModelSerializer.to_representation` output: all fields
except the excluded `id`, plus the two counters. -/
def fullRepresentation (edges : List FollowEdge) (p : Profile) : ProfileFields :=
  { user := p.user
    gender := p.gender
    website := p.website
    bio := p.bio
    avatar := p.avatar
    is_private := p.is_private
    is_verified := p.is_verified
    is_professional := p.is_professional
    links := p.links
    posts := p.posts
    reels := p.reels
    stories := p.stories
    saved_posts := p.saved_posts
    liked_posts := p.liked_posts
    highlights := p.highlights
    profile_views := p.profile_views
    created_at := p.created_at
    updated_at := p.updated_at
    is_active := p.is_active
    followers_count := followers_count edges p.user
    following_count := following_count edges p.user }

/-- The redaction message returned by `to_representation` for a private
profile viewed by a non-following non-owner. -/
def privateDetail : String := "This profile is private. Follow to view details."

/-- `ProfileSerializer.to_representation` from `users/serializers.py`,
line for line: if the context has no request, fall through to the full
representation; otherwise, for a private profile and a viewer other
than the owner, return the redaction dictionary unless the viewer
follows the owner.  `request` is `none` when the serializer context has
no request, else `some viewer` with the requesting user's id. -/
def to_representation (edges : List FollowEdge) (request : Option Nat)
    (inst : Profile) : Representation :=
  match request with
  | none => Representation.full (fullRepresentation edges inst)
  | some viewer =>
    if inst.is_private then
      if viewer != inst.user then
        if !(isFollowing edges viewer inst.user) then
          Representation.detail privateDetail
        else
          Representation.full (fullRepresentation edges inst)
      else
        Representation.full (fullRepresentation edges inst)
    else
      Representation.full (fullRepresentation edges inst)

/-- The spec's `ResolveProfileView` rule list (§4.4), written with its
rules in the spec's order, first match winning: owner → Full; public →
Full; private → Full iff following, else Redacted.  Stated separately
from `to_representation` so that agreement with the code is a theorem,
not a definition. -/
def resolveProfileView_spec (edges : List FollowEdge) (viewer : Nat)
    (p : Profile) : Representation :=
  if viewer == p.user then Representation.full (fullRepresentation edges p)
  else if p.is_private = false then Representation.full (fullRepresentation edges p)
  else if isFollowing edges viewer p.user then Representation.full (fullRepresentation edges p)
  else Representation.detail privateDetail

/-- Errors of the Graph Store contract (spec §4.1, §7: `ConflictError`
cases for the follow graph). -/
inductive EdgeError where
  | SelfFollowError : EdgeError
  | DuplicateEdgeError : EdgeError
  deriving DecidableEq, Repr

/-- Modelled from the spec: the Graph Store's `AddEdge` (§4.1).  The
follow endpoint itself is not among the given source files; `src` holds
only the `Follow` model, whose `unique_together ("follower",
"following")` backs the duplicate check.  Per the spec: fail with
`SelfFollowError` if follower equals following, with
`DuplicateEdgeError` if the edge exists, otherwise create the edge. -/
def AddEdge (edges : List FollowEdge) (follower following : Nat) :
    Except EdgeError (List FollowEdge) :=
  if follower == following then Except.error EdgeError.SelfFollowError
  else if isFollowing edges follower following then Except.error EdgeError.DuplicateEdgeError
  else Except.ok ((follower, following) :: edges)

/-- Modelled from the spec: the Graph Store's `RemoveEdge` (§4.1), an
idempotent removal — a no-op success when the edge is absent. -/
def RemoveEdge (edges : List FollowEdge) (follower following : Nat) :
    List FollowEdge :=
  edges.filter (fun e => !(e.1 == follower && e.2 == following))

/-- Access levels from `users/models.py` `ACCESS_LEVEL_CHOICES`, in the
order they are listed there. -/
inductive AccessLevel where
  | NONE : AccessLevel
  | VIEW : AccessLevel
  | WRITE : AccessLevel
  | FULL : AccessLevel
  deriving DecidableEq, Repr

/-- The privilege ordering NONE < VIEW < WRITE < FULL, as the position
in `ACCESS_LEVEL_CHOICES`. -/
def levelRank : AccessLevel → Nat
  | AccessLevel.NONE => 0
  | AccessLevel.VIEW => 1
  | AccessLevel.WRITE => 2
  | AccessLevel.FULL => 3

/-- The more privileged of two access levels. -/
def maxLevel (a b : AccessLevel) : AccessLevel :=
  if levelRank a < levelRank b then b else a

/-- A permission row from `users/models.py` `Permission`: a
`(resource, level)` pair, the resource by its unique name. -/
structure Permission where
  resource : String
  level : AccessLevel
  deriving DecidableEq, Repr

/-- A role from `users/models.py` `Role`: a unique name and a
many-to-many bag of permissions. -/
structure Role where
  name : String
  permissions : List Permission
  deriving DecidableEq, Repr

/-- Lookup in an association list of `(resource name, access level)`
entries. -/
def lookupRes : List (String × AccessLevel) → String → Option AccessLevel
  | [], _ => none
  | (r, l) :: rest, res => if r = res then some l else lookupRes rest res

/-- Record one permission into the resolved entries: update the entry
for its resource with the maximum level, or append a fresh entry. -/
def insertPerm : List (String × AccessLevel) → Permission → List (String × AccessLevel)
  | [], p => [(p.resource, p.level)]
  | (r, l) :: rest, p =>
    if r = p.resource then (r, maxLevel l p.level) :: rest
    else (r, l) :: insertPerm rest p

/-- All permissions reachable through a list of roles (the union over
the assigned roles' permission bags). -/
def unionPerms (roles : List Role) : List Permission :=
  roles.flatMap (fun r => r.permissions)

/-- Modelled from the spec: the RBAC Store's `Resolve` (§4.2) — no
resolver code is among the given source files, only the `Permission`,
`Role` and `UserRole` models.  Per the spec: union over all assigned
roles' permissions, and for permissions sharing a resource take the
maximum access level. -/
def Resolve (roles : List Role) : List (String × AccessLevel) :=
  (unionPerms roles).foldl insertPerm []

/-- The access levels carried by the permissions of `ps` for the
resource `res` (the declarative side of the union-then-max law). -/
def levelsFor (res : String) (ps : List Permission) : List AccessLevel :=
  ps.filterMap (fun p => if p.resource = res then some p.level else none)

/-- Fold a list of access levels into the running maximum, starting
from an optional current entry; `none` on the empty list. -/
def foldMax : Option AccessLevel → List AccessLevel → Option AccessLevel
  | acc, [] => acc
  | none, l :: ls => foldMax (some l) ls
  | some m, l :: ls => foldMax (some (maxLevel m l)) ls

/-- An RBAC decision (spec §4.3). -/
inductive Decision where
  | Allow : Decision
  | Deny : Decision
  deriving DecidableEq, Repr

/-- The whole persisted state of the service: the `User`, `Profile` and
`Follow` tables from `users/models.py`, the `Role` table, and the
`UserRole` assignment rows as `(user id, role name)` pairs. -/
structure SystemState where
  users : List User
  profiles : List Profile
  edges : List FollowEdge
  roles : List Role
  userRoles : List (Nat × String)
  deriving DecidableEq, Repr

/-- The roles assigned to an identity: its `UserRole` rows joined to the
`Role` table by name. -/
def rolesOf (st : SystemState) (uid : Nat) : List Role :=
  (st.userRoles.filter (fun a => a.1 == uid)).filterMap
    (fun a => st.roles.find? (fun r => r.name == a.2))

/-- Modelled from the spec: the Permission Resolver's `Authorize`
(§4.3) — not among the given source files, which hold only the DRF
permission classes.  Per the spec: fail closed — fetch the identity; if
nonexistent or inactive, Deny; otherwise resolve, Deny when the
resource has no entry, else Allow iff the resolved level reaches the
required one. -/
def Authorize (st : SystemState) (uid : Nat) (res : String)
    (req : AccessLevel) : Decision :=
  match st.users.find? (fun u => u.id == uid) with
  | none => Decision.Deny
  | some u =>
    if u.is_active then
      match lookupRes (Resolve (rolesOf st uid)) res with
      | none => Decision.Deny
      | some lvl => if levelRank req ≤ levelRank lvl then Decision.Allow else Decision.Deny
    else Decision.Deny

/-- The requesting user of a DRF request: `none` models Django's
`AnonymousUser` (whose `is_authenticated` is false and whose
`is_superuser` is false). -/
def is_authenticated : Option User → Bool
  | none => false
  | some _ => true

/-- `request.user.is_superuser`; false on `AnonymousUser`. -/
def userIsSuperuser : Option User → Bool
  | none => false
  | some u => u.is_superuser

/-- `request.user.user_roles.filter(role__name="USER").exists()` from
`users/permissions.py`; an anonymous user has no assignment rows. -/
def userHasUserRole (st : SystemState) : Option User → Bool
  | none => false
  | some u => st.userRoles.any (fun a => a.1 == u.id && a.2 == "USER")

/-- `IsAdmin.has_permission` from `users/permissions.py`:
`request.user.is_authenticated and request.user.is_superuser`. -/
def IsAdmin_has_permission (requester : Option User) : Bool :=
  is_authenticated requester && userIsSuperuser requester

/-- `IsNormalUser.has_permission` from `users/permissions.py`:
`request.user.is_authenticated and
request.user.user_roles.filter(role__name="USER").exists()`. -/
def IsNormalUser_has_permission (st : SystemState) (requester : Option User) : Bool :=
  is_authenticated requester && userHasUserRole st requester

/-- The `Profile` row created by `Profile.objects.create(user=user)` in
`RegisterSerializer.create`: every field at its model default. -/
def defaultProfile (uid pid : Nat) : Profile :=
  { pid := pid
    user := uid
    gender := "unset"
    website := none
    bio := none
    avatar := none
    is_private := false
    is_verified := false
    is_professional := false
    links := []
    posts := []
    reels := []
    stories := []
    saved_posts := []
    liked_posts := []
    highlights := []
    profile_views := 0
    created_at := 0
    updated_at := 0
    is_active := true }

/-- `RegisterSerializer.create` from `users/serializers.py`, guarded by
the serializer's uniqueness validation: a duplicate username is
rejected by `validate_username` (and a clashing UUID cannot be
assigned), leaving the state unchanged; otherwise the user row is
created, exactly one `Profile` row is created for it,
`Role.objects.get_or_create(name=role_name.upper())` ensures the role
row, and one `UserRole` row is added.  The other format validations
(length, charset, password policy) also only reject, which the
unchanged-state branch covers. -/
def register_create (st : SystemState) (uid pid : Nat)
    (username email : String) (roleName : Option String) : SystemState :=
  if st.users.any (fun u => u.username == username) then st
  else if st.users.any (fun u => u.id == uid) then st
  else
    { st with
      users :=
        { id := uid, username := username, email := email,
          is_active := true, is_superuser := false } :: st.users
      profiles := defaultProfile uid pid :: st.profiles
      roles :=
        if st.roles.any (fun r => r.name == (roleName.getD "user").toUpper) then st.roles
        else { name := (roleName.getD "user").toUpper, permissions := [] } :: st.roles
      userRoles := (uid, (roleName.getD "user").toUpper) :: st.userRoles }

/-- Serving a profile view: load the owner's profile
(`LoadProfile(ownerID) -> Profile | NotFound`, spec §6) and serialize it
with `ProfileSerializer.to_representation`.  The serializer performs no
writes — it neither assigns to any `instance` field nor calls `save()`
— so the state after the call is returned unchanged. -/
def viewProfile (st : SystemState) (viewer owner : Nat) :
    Option Representation × SystemState :=
  match st.profiles.find? (fun p => p.user == owner) with
  | none => (none, st)
  | some p => (some (to_representation st.edges (some viewer) p), st)

/-- Modelled from the spec: the RBAC Store's `AssignRole` (§4.2) —
fails (state unchanged) when the role name is unregistered or the
assignment is already held, else adds the assignment row. -/
def AssignRole (st : SystemState) (uid : Nat) (roleName : String) : SystemState :=
  if st.roles.any (fun r => r.name == roleName) then
    if st.userRoles.any (fun a => a.1 == uid && a.2 == roleName) then st
    else { st with userRoles := (uid, roleName) :: st.userRoles }
  else st

/-- Modelled from the spec: the RBAC Store's `RevokeRole` (§4.2), an
idempotent removal of the assignment row. -/
def RevokeRole (st : SystemState) (uid : Nat) (roleName : String) : SystemState :=
  { st with userRoles := st.userRoles.filter (fun a => !(a.1 == uid && a.2 == roleName)) }

/-- The operations of the service that touch persisted state:
registration (`RegisterSerializer.create`), the graph ops, role
assignment, and serving a profile view. -/
inductive Op where
  | register (uid pid : Nat) (username email : String) (roleName : Option String) : Op
  | addEdge (a b : Nat) : Op
  | removeEdge (a b : Nat) : Op
  | assignRole (uid : Nat) (roleName : String) : Op
  | revokeRole (uid : Nat) (roleName : String) : Op
  | view (viewer owner : Nat) : Op

/-- One step of the service: apply an operation to the state (a failed
`AddEdge` leaves the state unchanged). -/
def step (st : SystemState) : Op → SystemState
  | Op.register uid pid username email roleName =>
    register_create st uid pid username email roleName
  | Op.addEdge a b =>
    match AddEdge st.edges a b with
    | Except.ok es => { st with edges := es }
    | Except.error _ => st
  | Op.removeEdge a b => { st with edges := RemoveEdge st.edges a b }
  | Op.assignRole uid roleName => AssignRole st uid roleName
  | Op.revokeRole uid roleName => RevokeRole st uid roleName
  | Op.view viewer owner => (viewProfile st viewer owner).2

/-- One Profile per active Identity (spec §3), together with the
foreign-key integrity of `Profile.user` (a `OneToOneField` with
`on_delete=CASCADE`, so no orphan profiles). -/
def ProfileInvariant (st : SystemState) : Prop :=
  (∀ u ∈ st.users, u.is_active = true →
    st.profiles.countP (fun p => p.user == u.id) = 1) ∧
  (∀ p ∈ st.profiles, ∃ u ∈ st.users, u.id = p.user)

/-- The empty database. -/
def emptyState : SystemState :=
  { users := [], profiles := [], edges := [], roles := [], userRoles := [] }

/-- A concrete private profile of owner `1` with a bio, a link and a
nonzero view counter. -/
def pW1 : Profile :=
  { defaultProfile 1 11 with
    bio := some "hello", links := ["l"], is_private := true, profile_views := 7 }

/-- A concrete private profile of owner `1` with all fields at their
defaults except the privacy flag. -/
def pW2 : Profile :=
  { defaultProfile 1 12 with is_private := true }

/-- A registered owner, id `1`. -/
def uOwner : User :=
  { id := 1, username := "alice", email := "alice@example.com",
    is_active := true, is_superuser := false }

/-- A registered viewer, id `2`, distinct from the owner. -/
def uViewer : User :=
  { id := 2, username := "bobby", email := "bobby@example.com",
    is_active := true, is_superuser := false }

/-- Owner `1`'s public profile with view counter `0`. -/
def profPub : Profile := defaultProfile 1 10

/-- A concrete state: two users, owner `1`'s public profile, no edges. -/
def stPub : SystemState :=
  { users := [uOwner, uViewer], profiles := [profPub], edges := [],
    roles := [], userRoles := [] }

/-- The view counter of the profile owned by `owner`, if any. -/
def viewsOf (st : SystemState) (owner : Nat) : Option Int :=
  (st.profiles.find? (fun p => p.user == owner)).map (fun p => p.profile_views)

/-- A concrete state whose only role assignment belongs to user `2`. -/
def stRoleOfTwo : SystemState :=
  { users := [], profiles := [], edges := [],
    roles := [{ name := "USER", permissions := [] }],
    userRoles := [(2, "USER")] }

/-! ## Theorems -/

/-- C1.  `ProfileSerializer.to_representation` (with a request in
context) agrees with the spec's `ResolveProfileView` rule list evaluated
in order with first match winning: owner → Full; public → Full; private
non-owner → Full exactly when a follow edge exists, else Redacted. -/
theorem to_representation_first_match :
    ∀ (edges : List FollowEdge) (viewer : Nat) (p : Profile),
    to_representation edges (some viewer) p = resolveProfileView_spec edges viewer p := by
  intro edges viewer p
  cases hp : p.is_private <;> cases hv : viewer == p.user <;>
    cases hf : isFollowing edges viewer p.user <;>
    simp [to_representation, resolveProfileView_spec, hp, hv, hf, bne]

/-- C10.  When the serializer context holds no request,
`to_representation` returns the full field representation for every
profile — the privacy gate is skipped entirely. -/
theorem no_request_skips_privacy :
    ∀ (edges : List FollowEdge) (p : Profile),
    to_representation edges none p = Representation.full (fullRepresentation edges p) := by
  intro edges p
  rfl

/-- C5.  A Redacted outcome is the constant redaction dictionary: for a
private profile and a non-following non-owner the output is exactly the
`detail` string, so two such profiles of the same owner serialize
identically however their other fields differ. -/
theorem redacted_leaks_nothing :
    ∀ (edges : List FollowEdge) (viewer : Nat) (p1 p2 : Profile),
    p1.user = p2.user → p1.is_private = true → p2.is_private = true →
    viewer ≠ p1.user → isFollowing edges viewer p1.user = false →
    to_representation edges (some viewer) p1 = Representation.detail privateDetail ∧
    to_representation edges (some viewer) p1 = to_representation edges (some viewer) p2 := by
  intro edges viewer p1 p2 huser h1 h2 hne hf
  have hv1 : (viewer == p1.user) = false := by simpa using hne
  have hv2 : (viewer == p2.user) = false := by rw [← huser]; exact hv1
  have hf2 : isFollowing edges viewer p2.user = false := by rw [← huser]; exact hf
  constructor <;> simp [to_representation, h1, h2, hv1, hv2, hf, hf2, bne]

/-- Witness for C5 at concrete inputs: two distinct private profiles of
owner `1` (different bio, links and counters), viewer `2`, no edges. -/
theorem redacted_leaks_nothing_witness :
    pW1 ≠ pW2 ∧
    to_representation [] (some 2) pW1 = Representation.detail privateDetail ∧
    to_representation [] (some 2) pW1 = to_representation [] (some 2) pW2 := by
  refine ⟨by decide, ?_, ?_⟩
  · exact (redacted_leaks_nothing [] 2 pW1 pW2 rfl rfl rfl (by decide) rfl).1
  · exact (redacted_leaks_nothing [] 2 pW1 pW2 rfl rfl rfl (by decide) rfl).2

/-- C4 (amended).  Serving a profile view writes nothing: the state
after `viewProfile` — in particular every profile field, the view
counter included — is the input state, whatever the outcome. -/
theorem view_leaves_state_unchanged :
    ∀ (st : SystemState) (viewer owner : Nat),
    (viewProfile st viewer owner).2 = st ∧ step st (Op.view viewer owner) = st := by
  intro st viewer owner
  have h : (viewProfile st viewer owner).2 = st := by
    unfold viewProfile
    cases st.profiles.find? (fun p => p.user == owner) <;> rfl
  exact ⟨h, h⟩

/-- Counterexample to C4 as stated: viewer `2` receives a Full
disclosure of owner `1`'s profile while not being the owner, yet the
view counter after the call is still `0`, not `0 + 1`. -/
theorem view_counter_not_incremented :
    (viewProfile stPub 2 1).1 = some (Representation.full (fullRepresentation [] profPub)) ∧
    (2 : Nat) ≠ profPub.user ∧
    viewsOf stPub 1 = some 0 ∧
    viewsOf (viewProfile stPub 2 1).2 1 = some 0 ∧
    viewsOf (viewProfile stPub 2 1).2 1 ≠ some (profPub.profile_views + 1) := by
  decide

/-- C3.  `AddEdge(a, a)` always fails with `SelfFollowError`, and a
successful `AddEdge` never creates a reflexive edge: if no edge of the
table joins an identity to itself, the same holds after any successful
`AddEdge`. -/
theorem addEdge_self_fails :
    ∀ (edges : List FollowEdge) (a : Nat),
    AddEdge edges a a = Except.error EdgeError.SelfFollowError ∧
    (∀ (b : Nat) (edges2 : List FollowEdge), AddEdge edges a b = Except.ok edges2 →
      (∀ e ∈ edges, e.1 ≠ e.2) → ∀ e ∈ edges2, e.1 ≠ e.2) := by
  intro edges a
  constructor
  · unfold AddEdge
    simp
  · intro b edges2 hok hinv e he
    unfold AddEdge at hok
    by_cases hab : (a == b) = true
    · simp [hab] at hok
    · rw [Bool.not_eq_true] at hab
      by_cases hf : isFollowing edges a b = true
      · simp [hab, hf] at hok
      · rw [Bool.not_eq_true] at hf
        simp [hab, hf] at hok
        subst hok
        rw [List.mem_cons] at he
        rcases he with rfl | he
        · show a ≠ b
          intro hc
          subst hc
          simp at hab
        · exact hinv e he

/-- Witness for C3 at concrete inputs: the self-follow `AddEdge([],1,1)`
fails, and the table produced by the successful `AddEdge([],1,2)` has no
reflexive edge. -/
theorem addEdge_self_fails_witness :
    AddEdge [] 1 1 = Except.error EdgeError.SelfFollowError ∧
    ∀ e ∈ [((1 : Nat), (2 : Nat))], e.1 ≠ e.2 := by
  constructor
  · exact (addEdge_self_fails [] 1).1
  · exact (addEdge_self_fails [] 1).2 2 [(1, 2)] rfl (by decide)

/-- C7.  For distinct `a`, `b` with no existing edge: `AddEdge`
succeeds; an immediately repeated `AddEdge` fails with
`DuplicateEdgeError`; and after `RemoveEdge` the repeated `AddEdge`
succeeds again. -/
theorem addEdge_duplicate_cycle :
    ∀ (a b : Nat) (edges : List FollowEdge),
    a ≠ b → isFollowing edges a b = false →
    AddEdge edges a b = Except.ok ((a, b) :: edges) ∧
    AddEdge ((a, b) :: edges) a b = Except.error EdgeError.DuplicateEdgeError ∧
    AddEdge (RemoveEdge ((a, b) :: edges) a b) a b =
      Except.ok ((a, b) :: RemoveEdge ((a, b) :: edges) a b) := by
  intro a b edges hne hni
  have hab : (a == b) = false := by simpa using hne
  refine ⟨?_, ?_, ?_⟩
  · unfold AddEdge
    simp [hab, hni]
  · unfold AddEdge
    simp [hab, isFollowing]
  · have hrem : isFollowing (RemoveEdge ((a, b) :: edges) a b) a b = false := by
      unfold isFollowing RemoveEdge
      rw [List.any_eq_false]
      intro e he
      rw [List.mem_filter] at he
      cases hb : (e.1 == a && e.2 == b) with
      | false => simp [hb]
      | true =>
        rw [hb] at he
        simp at he
    unfold AddEdge
    simp [hab, hrem]

/-- Witness for C7 at concrete inputs `a = 1`, `b = 2` on the empty
table. -/
theorem addEdge_duplicate_cycle_witness :
    AddEdge [] 1 2 = Except.ok [(1, 2)] ∧
    AddEdge [(1, 2)] 1 2 = Except.error EdgeError.DuplicateEdgeError ∧
    AddEdge (RemoveEdge [(1, 2)] 1 2) 1 2 =
      Except.ok ((1, 2) :: RemoveEdge [(1, 2)] 1 2) :=
  addEdge_duplicate_cycle 1 2 [] (by decide) rfl

/-- C2.  `Authorize` fails closed: a nonexistent or inactive identity is
denied; a resource with no resolved entry is denied; and the source's
permission checks are plain boolean tests that deny the anonymous user
rather than raising. -/
theorem authorize_fails_closed :
    ∀ (st : SystemState) (uid : Nat) (res : String) (req : AccessLevel),
    ((st.users.find? (fun u => u.id == uid) = none ∨
      ∃ u, st.users.find? (fun u => u.id == uid) = some u ∧ u.is_active = false) →
      Authorize st uid res req = Decision.Deny) ∧
    (lookupRes (Resolve (rolesOf st uid)) res = none →
      Authorize st uid res req = Decision.Deny) ∧
    IsAdmin_has_permission none = false ∧
    IsNormalUser_has_permission st none = false := by
  intro st uid res req
  refine ⟨?_, ?_, rfl, rfl⟩
  · rintro (hnone | ⟨u, hu, hin⟩)
    · unfold Authorize
      rw [hnone]
    · unfold Authorize
      rw [hu]
      simp [hin]
  · intro hl
    unfold Authorize
    cases hfind : st.users.find? (fun u => u.id == uid) with
    | none => rfl
    | some u => by_cases ha : u.is_active <;> simp [ha, hl]

/-- Witness for C2 at a concrete input: the empty store denies the
lookup of identity `1`. -/
theorem authorize_fails_closed_witness :
    Authorize emptyState 1 "posts" AccessLevel.VIEW = Decision.Deny :=
  (authorize_fails_closed emptyState 1 "posts" AccessLevel.VIEW).1 (Or.inl rfl)

/-- C8.  An identity with no role assignments is denied for every
resource and required level, both by `Authorize` and by the source's
`IsNormalUser` check. -/
theorem no_role_assignments_deny :
    ∀ (st : SystemState) (uid : Nat) (res : String) (req : AccessLevel),
    (∀ a ∈ st.userRoles, a.1 ≠ uid) →
    Authorize st uid res req = Decision.Deny ∧
    ∀ u : User, u.id = uid → IsNormalUser_has_permission st (some u) = false := by
  intro st uid res req h
  have hfilter : st.userRoles.filter (fun a => a.1 == uid) = [] := by
    rw [List.filter_eq_nil_iff]
    intro a ha
    simpa using h a ha
  have hroles : rolesOf st uid = [] := by
    unfold rolesOf
    rw [hfilter]
    rfl
  constructor
  · unfold Authorize
    cases hfind : st.users.find? (fun u => u.id == uid) with
    | none => rfl
    | some u =>
      have hl : lookupRes (Resolve (rolesOf st uid)) res = none := by
        rw [hroles]
        rfl
      by_cases ha : u.is_active <;> simp [ha, hl]
  · intro u hu
    have hany : st.userRoles.any (fun a => a.1 == u.id && a.2 == "USER") = false := by
      rw [List.any_eq_false]
      intro a ha
      simp only [Bool.and_eq_true, beq_iff_eq]
      exact fun hc => h a ha (hu ▸ hc.1)
    unfold IsNormalUser_has_permission userHasUserRole is_authenticated
    simp [hany]

/-- Witness for C8 at a concrete input: identity `1` holds no
assignment in a store whose only assignment belongs to identity `2`. -/
theorem no_role_assignments_deny_witness :
    Authorize stRoleOfTwo 1 "posts" AccessLevel.FULL = Decision.Deny :=
  (no_role_assignments_deny stRoleOfTwo 1 "posts" AccessLevel.FULL (by decide)).1

/-- `maxLevel` picks one of its arguments. -/
theorem maxLevel_eq_or (a b : AccessLevel) : maxLevel a b = a ∨ maxLevel a b = b := by
  cases a <;> cases b <;> decide

/-- The left argument is at most the maximum. -/
theorem rank_le_maxLevel_left (a b : AccessLevel) :
    levelRank a ≤ levelRank (maxLevel a b) := by
  cases a <;> cases b <;> decide

/-- The right argument is at most the maximum. -/
theorem rank_le_maxLevel_right (a b : AccessLevel) :
    levelRank b ≤ levelRank (maxLevel a b) := by
  cases a <;> cases b <;> decide

/-- `levelRank` is injective. -/
theorem levelRank_inj (a b : AccessLevel) : levelRank a = levelRank b → a = b := by
  cases a <;> cases b <;> decide

/-- Looking up a resource after recording one permission: the entry of
that permission's resource is updated with the maximum, every other
entry is untouched. -/
theorem lookupRes_insertPerm (acc : List (String × AccessLevel)) (p : Permission)
    (res : String) :
    lookupRes (insertPerm acc p) res =
      if p.resource = res then
        match lookupRes acc res with
        | none => some p.level
        | some l => some (maxLevel l p.level)
      else lookupRes acc res := by
  induction acc with
  | nil =>
    by_cases h : p.resource = res <;> simp [insertPerm, lookupRes, h]
  | cons hd tl ih =>
    obtain ⟨r, l⟩ := hd
    by_cases hr : r = p.resource
    · subst hr
      by_cases hres : p.resource = res <;> simp [insertPerm, lookupRes, hres]
    · by_cases hres : r = res
      · have hpres : ¬p.resource = res := fun hc => hr (hres.trans hc.symm)
        have hpres2 : ¬res = p.resource := fun hc => hpres hc.symm
        simp [insertPerm, lookupRes, hr, hres, hpres, hpres2]
      · simp [insertPerm, lookupRes, hr, hres, ih]

/-- Folding permissions into the resolved entries computes, per
resource, the running maximum of the levels seen. -/
theorem foldl_insertPerm_lookup :
    ∀ (ps : List Permission) (acc : List (String × AccessLevel)) (res : String),
    lookupRes (ps.foldl insertPerm acc) res = foldMax (lookupRes acc res) (levelsFor res ps) := by
  intro ps
  induction ps with
  | nil =>
    intro acc res
    cases h : lookupRes acc res <;> simp [levelsFor, foldMax, h]
  | cons p ps ih =>
    intro acc res
    rw [List.foldl_cons, ih, lookupRes_insertPerm]
    by_cases h : p.resource = res
    · rw [if_pos h]
      have hcons : levelsFor res (p :: ps) = p.level :: levelsFor res ps := by
        simp [levelsFor, h]
      rw [hcons]
      cases hacc : lookupRes acc res <;> simp [foldMax]
    · rw [if_neg h]
      have hcons : levelsFor res (p :: ps) = levelsFor res ps := by
        simp [levelsFor, h]
      rw [hcons]

/-- `foldMax` from a seed returns the maximum of the seed and the list:
it is some element (or the seed), and it dominates the seed and every
element. -/
theorem foldMax_spec :
    ∀ (ls : List AccessLevel) (m : AccessLevel),
    ∃ lvl, foldMax (some m) ls = some lvl ∧ (lvl = m ∨ lvl ∈ ls) ∧
      levelRank m ≤ levelRank lvl ∧ ∀ l ∈ ls, levelRank l ≤ levelRank lvl := by
  intro ls
  induction ls with
  | nil =>
    intro m
    exact ⟨m, rfl, Or.inl rfl, Nat.le_refl _, by simp⟩
  | cons l ls ih =>
    intro m
    obtain ⟨lvl, h1, h2, h3, h4⟩ := ih (maxLevel m l)
    refine ⟨lvl, h1, ?_, ?_, ?_⟩
    · rcases h2 with h2 | h2
      · rcases maxLevel_eq_or m l with hm | hm
        · exact Or.inl (h2.trans hm)
        · exact Or.inr (by rw [h2, hm]; exact List.mem_cons_self _ _)
      · exact Or.inr (List.mem_cons_of_mem _ h2)
    · exact Nat.le_trans (rank_le_maxLevel_left m l) h3
    · intro x hx
      rw [List.mem_cons] at hx
      rcases hx with hxl | hx
      · rw [hxl]
        exact Nat.le_trans (rank_le_maxLevel_right m l) h3
      · exact h4 x hx

/-- `foldMax` from `none` returns a value exactly when it is a member
that dominates the whole list. -/
theorem foldMax_none_eq_some_iff (ls : List AccessLevel) (lvl : AccessLevel) :
    foldMax none ls = some lvl ↔
      lvl ∈ ls ∧ ∀ l ∈ ls, levelRank l ≤ levelRank lvl := by
  cases ls with
  | nil => simp [foldMax]
  | cons l ls =>
    constructor
    · intro h
      obtain ⟨lvl', h1, h2, h3, h4⟩ := foldMax_spec ls l
      rw [show foldMax none (l :: ls) = foldMax (some l) ls from rfl, h1] at h
      obtain rfl : lvl' = lvl := Option.some.inj h
      refine ⟨?_, ?_⟩
      · rcases h2 with rfl | h2
        · exact List.mem_cons_self _ _
        · exact List.mem_cons_of_mem _ h2
      · intro x hx
        rw [List.mem_cons] at hx
        rcases hx with rfl | hx
        · exact h3
        · exact h4 x hx
    · rintro ⟨hmem, hub⟩
      obtain ⟨lvl', h1, h2, h3, h4⟩ := foldMax_spec ls l
      have heq : lvl' = lvl := by
        apply levelRank_inj
        apply Nat.le_antisymm
        · rcases h2 with rfl | h2
          · exact hub _ (List.mem_cons_self _ _)
          · exact hub _ (List.mem_cons_of_mem _ h2)
        · rw [List.mem_cons] at hmem
          rcases hmem with rfl | hmem
          · exact h3
          · exact h4 _ hmem
      rw [show foldMax none (l :: ls) = foldMax (some l) ls from rfl, h1, heq]

/-- Membership in `levelsFor`. -/
theorem mem_levelsFor (res : String) (ps : List Permission) (lvl : AccessLevel) :
    lvl ∈ levelsFor res ps ↔ ∃ p ∈ ps, p.resource = res ∧ p.level = lvl := by
  unfold levelsFor
  rw [List.mem_filterMap]
  constructor
  · rintro ⟨p, hp, h⟩
    by_cases hres : p.resource = res
    · rw [if_pos hres] at h
      exact ⟨p, hp, hres, Option.some.inj h⟩
    · rw [if_neg hres] at h
      cases h
  · rintro ⟨p, hp, hres, hl⟩
    exact ⟨p, hp, by rw [if_pos hres, hl]⟩

/-- C6.  The union-then-max law: `Resolve` maps a resource to a level
exactly when some assigned role grants that level for the resource and
no assigned role grants a higher one; and a resource is absent from the
resolved entries exactly when no assigned role's permission mentions
it.  No other composition rule (in particular no deny override)
exists. -/
theorem resolve_union_then_max :
    ∀ (roles : List Role) (res : String) (lvl : AccessLevel),
    (lookupRes (Resolve roles) res = some lvl ↔
      (∃ r ∈ roles, ∃ p ∈ r.permissions, p.resource = res ∧ p.level = lvl) ∧
      (∀ r ∈ roles, ∀ p ∈ r.permissions, p.resource = res →
        levelRank p.level ≤ levelRank lvl)) ∧
    (lookupRes (Resolve roles) res = none ↔
      ∀ r ∈ roles, ∀ p ∈ r.permissions, p.resource ≠ res) := by
  intro roles res lvl
  have hbase : lookupRes (Resolve roles) res =
      foldMax none (levelsFor res (unionPerms roles)) := by
    unfold Resolve
    rw [foldl_insertPerm_lookup]
    rfl
  constructor
  · rw [hbase, foldMax_none_eq_some_iff]
    constructor
    · rintro ⟨hmem, hub⟩
      rw [mem_levelsFor] at hmem
      obtain ⟨p, hp, hres, hlvl⟩ := hmem
      obtain ⟨r, hr, hpr⟩ := List.mem_flatMap.mp hp
      refine ⟨⟨r, hr, p, hpr, hres, hlvl⟩, ?_⟩
      intro r' hr' q hq hqres
      apply hub
      rw [mem_levelsFor]
      exact ⟨q, List.mem_flatMap.mpr ⟨r', hr', hq⟩, hqres, rfl⟩
    · rintro ⟨⟨r, hr, p, hp, hres, hlvl⟩, hub⟩
      refine ⟨?_, ?_⟩
      · rw [mem_levelsFor]
        exact ⟨p, List.mem_flatMap.mpr ⟨r, hr, hp⟩, hres, hlvl⟩
      · intro x hx
        rw [mem_levelsFor] at hx
        obtain ⟨q, hq, hqres, hql⟩ := hx
        obtain ⟨r', hr', hqr⟩ := List.mem_flatMap.mp hq
        rw [← hql]
        exact hub r' hr' q hqr hqres
  · rw [hbase]
    constructor
    · intro h r hr p hp hres
      have hnil : levelsFor res (unionPerms roles) = [] := by
        cases hls : levelsFor res (unionPerms roles) with
        | nil => rfl
        | cons l ls =>
          rw [hls] at h
          obtain ⟨lvl', h1, _⟩ := foldMax_spec ls l
          rw [show foldMax none (l :: ls) = foldMax (some l) ls from rfl, h1] at h
          cases h
      have hmem : p.level ∈ levelsFor res (unionPerms roles) := by
        rw [mem_levelsFor]
        exact ⟨p, List.mem_flatMap.mpr ⟨r, hr, hp⟩, hres, rfl⟩
      rw [hnil] at hmem
      cases hmem
    · intro h
      have hnil : levelsFor res (unionPerms roles) = [] := by
        cases hls : levelsFor res (unionPerms roles) with
        | nil => rfl
        | cons l ls =>
          have hmem : l ∈ levelsFor res (unionPerms roles) := by
            rw [hls]
            exact List.mem_cons_self _ _
          rw [mem_levelsFor] at hmem
          obtain ⟨p, hp, hres, _⟩ := hmem
          obtain ⟨r, hr, hpr⟩ := List.mem_flatMap.mp hp
          exact absurd hres (h r hr p hpr)
      rw [hnil]
      rfl

/-- C9.  Exactly one Profile per active Identity, with foreign-key
integrity of `Profile.user`: the invariant is preserved by every
operation — registration creates exactly one profile for the fresh
identity, and no other operation touches the profile table. -/
theorem one_profile_per_active_identity :
    ∀ (st : SystemState) (op : Op),
    ProfileInvariant st → ProfileInvariant (step st op) := by
  intro st op h
  obtain ⟨h1, h2⟩ := h
  cases op with
  | register uid pid username email roleName =>
    show ProfileInvariant (register_create st uid pid username email roleName)
    unfold register_create
    by_cases hname : st.users.any (fun u => u.username == username) = true
    · rw [if_pos hname]
      exact ⟨h1, h2⟩
    · rw [if_neg hname]
      by_cases hid : st.users.any (fun u => u.id == uid) = true
      · rw [if_pos hid]
        exact ⟨h1, h2⟩
      · rw [if_neg hid]
        have hfresh : ∀ u ∈ st.users, u.id ≠ uid := by
          intro u hu hcontra
          apply hid
          rw [List.any_eq_true]
          exact ⟨u, hu, by simp [hcontra]⟩
        constructor
        · intro u hu hactive
          have hu' : u ∈ User.mk uid username email true false :: st.users := hu
          rw [List.mem_cons] at hu'
          rcases hu' with rfl | hu'
          · show (defaultProfile uid pid :: st.profiles).countP (fun p => p.user == uid) = 1
            rw [List.countP_cons]
            have hzero : st.profiles.countP (fun p => p.user == uid) = 0 := by
              rw [List.countP_eq_zero]
              intro p hp hc
              obtain ⟨u', hu', hup⟩ := h2 p hp
              rw [beq_iff_eq] at hc
              exact hfresh u' hu' (by rw [hup, hc])
            rw [hzero]
            simp [defaultProfile]
          · have hne : u.id ≠ uid := hfresh u hu'
            show (defaultProfile uid pid :: st.profiles).countP (fun p => p.user == u.id) = 1
            rw [List.countP_cons]
            have hnew : ((defaultProfile uid pid).user == u.id) = false := by
              simp [defaultProfile]
              exact fun hc => hne hc.symm
            rw [hnew]
            simpa using h1 u hu' hactive
        · intro p hp
          have hp' : p ∈ defaultProfile uid pid :: st.profiles := hp
          rw [List.mem_cons] at hp'
          rcases hp' with rfl | hp'
          · exact ⟨User.mk uid username email true false, List.mem_cons_self _ _, rfl⟩
          · obtain ⟨u, hu, hup⟩ := h2 p hp'
            exact ⟨u, List.mem_cons_of_mem _ hu, hup⟩
  | addEdge a b =>
    show ProfileInvariant
      (match AddEdge st.edges a b with
       | Except.ok es => { st with edges := es }
       | Except.error _ => st)
    cases AddEdge st.edges a b with
    | ok es => exact ⟨h1, h2⟩
    | error e => exact ⟨h1, h2⟩
  | removeEdge a b =>
    show ProfileInvariant { st with edges := RemoveEdge st.edges a b }
    exact ⟨h1, h2⟩
  | assignRole uid roleName =>
    show ProfileInvariant (AssignRole st uid roleName)
    unfold AssignRole
    split_ifs <;> exact ⟨h1, h2⟩
  | revokeRole uid roleName =>
    show ProfileInvariant (RevokeRole st uid roleName)
    exact ⟨h1, h2⟩
  | view viewer owner =>
    show ProfileInvariant (viewProfile st viewer owner).2
    unfold viewProfile
    cases st.profiles.find? (fun p => p.user == owner) with
    | none => exact ⟨h1, h2⟩
    | some p => exact ⟨h1, h2⟩

/-- Witness for C9 at a concrete input: registering identity `1` on the
empty database establishes the invariant. -/
theorem one_profile_per_active_identity_witness :
    ProfileInvariant (step emptyState (Op.register 1 10 "alice" "alice@example.com" none)) :=
  one_profile_per_active_identity emptyState (Op.register 1 10 "alice" "alice@example.com" none)
    ⟨fun u hu => absurd hu (List.not_mem_nil u),
     fun p hp => absurd hp (List.not_mem_nil p)⟩

end InstaCore
